import Mathlib

/-!
Verification of the InsightAPI authentication subsystem (session manager,
token codec, password hasher, credential store) against its specification.

The definitions below are a shallow embedding of `src/services/auth.service.js`,
`src/models/User.js` and `src/config/config.js`.  External collaborators
(the jsonwebtoken codec, the bcryptjs hasher, the Mongo-backed credential
store) are modelled at their interface boundary.  Asynchrony is irrelevant to
the properties below (each operation is a single read-modify-write), so the
operations are modelled as pure functions from a store and a clock reading to
a result and an updated store.  Mongoose bookkeeping timestamps
(`createdAt` / `updatedAt`) and schema input normalization (lowercasing,
trimming, length validators) are not modelled; no verified property depends
on them.
-/

deriving instance DecidableEq for Except

namespace InsightAPI

/-! ### Decimal rendering

JavaScript renders `Date.now()` into the template literal
`` `${user._id}-${Date.now()}` `` in decimal.  `natToDec` is that decimal
rendering, written with structural recursion on a fuel argument so that it
reduces in the kernel. -/

/-- Decimal digit to character, as in the usual base-10 rendering. -/
def digitChar (d : Nat) : Char :=
  if d = 0 then '0' else if d = 1 then '1' else if d = 2 then '2'
  else if d = 3 then '3' else if d = 4 then '4' else if d = 5 then '5'
  else if d = 6 then '6' else if d = 7 then '7' else if d = 8 then '8'
  else if d = 9 then '9' else '*'

/-- Fuel-driven decimal rendering of a natural number (most significant digit
first). -/
def natToDecAux : Nat → Nat → List Char
  | 0, _ => []
  | fuel + 1, n =>
    if n < 10 then [digitChar n]
    else natToDecAux fuel (n / 10) ++ [digitChar (n % 10)]

/-- Decimal rendering of a natural number, as JavaScript string interpolation
produces it (`0` renders as `"0"`). -/
def natToDec (n : Nat) : String :=
  String.mk (natToDecAux (n + 1) n)

theorem digitChar_injOn : ∀ d < 10, ∀ e < 10, digitChar d = digitChar e → d = e := by
  decide

theorem digitChar_ne_dash_dollar : ∀ d : Nat, digitChar d ≠ '-' ∧ digitChar d ≠ '$' := by
  intro d
  by_cases h : d < 10
  · interval_cases d <;> exact ⟨by decide, by decide⟩
  · have hc : digitChar d = '*' := by
      unfold digitChar
      have h0 : d ≠ 0 := by omega
      have h1 : d ≠ 1 := by omega
      have h2 : d ≠ 2 := by omega
      have h3 : d ≠ 3 := by omega
      have h4 : d ≠ 4 := by omega
      have h5 : d ≠ 5 := by omega
      have h6 : d ≠ 6 := by omega
      have h7 : d ≠ 7 := by omega
      have h8 : d ≠ 8 := by omega
      have h9 : d ≠ 9 := by omega
      simp [h0, h1, h2, h3, h4, h5, h6, h7, h8, h9]
    rw [hc]
    exact ⟨by decide, by decide⟩

/-- Closed form of the fuel-driven renderer in terms of `Nat.digits`. -/
theorem natToDecAux_eq_digits :
    ∀ fuel n, n < fuel →
      natToDecAux fuel n =
        if n = 0 then ['0'] else ((Nat.digits 10 n).map digitChar).reverse := by
  intro fuel
  induction fuel with
  | zero => intro n h; omega
  | succ f ih =>
    intro n hn
    by_cases h0 : n = 0
    · subst h0
      simp [natToDecAux, digitChar]
    · by_cases hsmall : n < 10
      · rw [natToDecAux]
        simp only [if_pos hsmall, if_neg h0]
        rw [Nat.digits_of_lt 10 n h0 hsmall]
        simp
      · rw [natToDecAux]
        simp only [if_neg hsmall, if_neg h0]
        have hdiv : n / 10 < f := by
          have h1 : n / 10 < n := Nat.div_lt_self (by omega) (by omega)
          omega
        have hdiv0 : n / 10 ≠ 0 := by
          have : 10 ≤ n := by omega
          have := Nat.le_div_iff_mul_le (k := 10) (by omega) |>.mpr (by omega : 1 * 10 ≤ n)
          omega
        rw [ih (n / 10) hdiv]
        simp only [if_neg hdiv0]
        rw [Nat.digits_def' (by omega : (1:Nat) < 10) (by omega : 0 < n)]
        simp

theorem natToDec_data (n : Nat) :
    (natToDec n).data =
      if n = 0 then ['0'] else ((Nat.digits 10 n).map digitChar).reverse := by
  unfold natToDec
  rw [natToDecAux_eq_digits (n + 1) n (Nat.lt_succ_self n)]

/-- Pointwise injectivity of `map digitChar` on digit lists. -/
theorem map_digitChar_inj :
    ∀ l1 l2 : List Nat, (∀ d ∈ l1, d < 10) → (∀ d ∈ l2, d < 10) →
      l1.map digitChar = l2.map digitChar → l1 = l2 := by
  intro l1
  induction l1 with
  | nil => intro l2 _ _ h; cases l2 <;> simp_all
  | cons a l ih =>
    intro l2 h1 h2 h
    cases l2 with
    | nil => simp_all
    | cons b m =>
      simp only [List.map_cons, List.cons.injEq] at h
      have ha : a < 10 := h1 a (List.mem_cons_self a l)
      have hb : b < 10 := h2 b (List.mem_cons_self b m)
      have hab : a = b := digitChar_injOn a ha b hb h.1
      have : l = m := ih m (fun d hd => h1 d (List.mem_cons_of_mem a hd))
        (fun d hd => h2 d (List.mem_cons_of_mem b hd)) h.2
      simp [hab, this]

theorem natToDec_inj {m n : Nat} (h : natToDec m = natToDec n) : m = n := by
  have hdata : (natToDec m).data = (natToDec n).data := by rw [h]
  rw [natToDec_data, natToDec_data] at hdata
  by_cases hm : m = 0 <;> by_cases hn : n = 0
  · omega
  · exfalso
    rw [if_pos hm, if_neg hn] at hdata
    have hrev : (Nat.digits 10 n).map digitChar = ['0'] := by
      have := congrArg List.reverse hdata
      simpa using this.symm
    have : Nat.digits 10 n = [0] := by
      apply map_digitChar_inj _ [0]
      · intro d hd; exact Nat.digits_lt_base (by omega) hd
      · intro d hd; simp at hd; omega
      · simpa [digitChar] using hrev
    have hlast := Nat.getLast_digit_ne_zero 10 hn
    simp [this] at hlast
  · exfalso
    rw [if_neg hm, if_pos hn] at hdata
    have hrev : (Nat.digits 10 m).map digitChar = ['0'] := by
      have := congrArg List.reverse hdata
      simpa using this
    have : Nat.digits 10 m = [0] := by
      apply map_digitChar_inj _ [0]
      · intro d hd; exact Nat.digits_lt_base (by omega) hd
      · intro d hd; simp at hd; omega
      · simpa [digitChar] using hrev
    have hlast := Nat.getLast_digit_ne_zero 10 hm
    simp [this] at hlast
  · rw [if_neg hm, if_neg hn] at hdata
    have hmap : (Nat.digits 10 m).map digitChar = (Nat.digits 10 n).map digitChar := by
      have := congrArg List.reverse hdata
      simpa using this
    have hdig : Nat.digits 10 m = Nat.digits 10 n := by
      apply map_digitChar_inj
      · intro d hd; exact Nat.digits_lt_base (by omega) hd
      · intro d hd; exact Nat.digits_lt_base (by omega) hd
      · exact hmap
    exact Nat.digits.injective 10 hdig

theorem natToDec_no_dash_dollar {n : Nat} {c : Char} (h : c ∈ (natToDec n).data) :
    c ≠ '-' ∧ c ≠ '$' := by
  rw [natToDec_data] at h
  by_cases hn : n = 0
  · rw [if_pos hn] at h
    simp at h
    subst h
    exact ⟨by decide, by decide⟩
  · rw [if_neg hn] at h
    rw [List.mem_reverse, List.mem_map] at h
    obtain ⟨d, _, hd⟩ := h
    rw [← hd]
    exact digitChar_ne_dash_dollar d

/-! ### Strings separated by a marker character -/

/-- Lists that agree around a separator occurring in neither left part split
uniquely. -/
theorem append_sep_inj {α : Type} [DecidableEq α] (c : α) :
    ∀ (l1 l2 m1 m2 : List α), c ∉ l1 → c ∉ l2 →
      l1 ++ c :: m1 = l2 ++ c :: m2 → l1 = l2 ∧ m1 = m2 := by
  intro l1
  induction l1 with
  | nil =>
    intro l2 m1 m2 _ hc2 h
    cases l2 with
    | nil => simp_all
    | cons b t =>
      simp only [List.nil_append, List.cons_append, List.cons.injEq] at h
      exact absurd (h.1 ▸ List.mem_cons_self b t) hc2
  | cons a t ih =>
    intro l2 m1 m2 hc1 hc2 h
    cases l2 with
    | nil =>
      simp only [List.cons_append, List.nil_append, List.cons.injEq] at h
      exact absurd (h.1.symm ▸ List.mem_cons_self a t) hc1
    | cons b t2 =>
      simp only [List.cons_append, List.cons.injEq] at h
      have := ih t2 m1 m2 (fun hm => hc1 (List.mem_cons_of_mem a hm))
        (fun hm => hc2 (List.mem_cons_of_mem b hm)) h.2
      exact ⟨by simp [h.1, this.1], this.2⟩

theorem string_data_append (a b : String) : (a ++ b).data = a.data ++ b.data := by
  cases a; cases b; rfl

/-! ### Token identifier generation

Embeds the `jti` computation of `generateAuthTokens` in
`src/services/auth.service.js`:
`` const jti = `${user._id}-${Date.now()}` ``. -/

/-- Unique JWT id for refresh tokens: principal id, a dash, and the decimal
clock reading. -/
def genJti (userId : String) (nowMillis : Nat) : String :=
  userId ++ "-" ++ natToDec nowMillis

/-- The jti computation is injective on (principal id, clock reading) pairs as
long as the principal id contains no dash, which holds for Mongo ObjectId hex
strings. -/
theorem genJti_inj {u1 u2 : String} {t1 t2 : Nat}
    (h1 : '-' ∉ u1.data) (h2 : '-' ∉ u2.data)
    (h : genJti u1 t1 = genJti u2 t2) : u1 = u2 ∧ t1 = t2 := by
  unfold genJti at h
  have hdata := congrArg String.data h
  rw [string_data_append, string_data_append, string_data_append,
    string_data_append] at hdata
  have hsep : u1.data ++ '-' :: (natToDec t1).data
      = u2.data ++ '-' :: (natToDec t2).data := by
    simpa using hdata
  have hnd1 : '-' ∉ (natToDec t1).data := fun hm => (natToDec_no_dash_dollar hm).1 rfl
  have := append_sep_inj '-' u1.data u2.data (natToDec t1).data (natToDec t2).data
    h1 h2 hsep
  exact ⟨String.ext this.1, natToDec_inj (String.ext this.2)⟩

/-! ### Password hasher

Modelled from the spec: the Password Hasher of section 4.1, implemented in the
source by the external `bcryptjs` library through the pre-save hook and
the `comparePassword` instance method of `src/models/User.js`.  The contract
modelled here is `hash(plaintext) -> digest` with a per-call salt and
`verify(plaintext, digest) -> bool`.  One-wayness is not modellable; the
digest is a tagged encoding of the salt and the plaintext, which suffices for
the hash/verify round trip and for the digest never being equal to the
plaintext. -/

/-- Salted digest of a plaintext password (model of `bcrypt.hash`). -/
def hashPassword (salt : Nat) (plaintext : String) : String :=
  "bcrypt$" ++ natToDec salt ++ "$" ++ plaintext

/-- Digest verification (model of `bcrypt.compare`): the digest must be the
tag, the salt recovered from the digest itself, and the candidate. -/
def comparePassword (candidate digest : String) : Bool :=
  decide (digest.data =
    "bcrypt$".data ++ ((digest.data.drop 7).takeWhile (fun ch => ch ≠ '$')
      ++ '$' :: candidate.data))

theorem hashPassword_data (salt : Nat) (p : String) :
    (hashPassword salt p).data =
      "bcrypt$".data ++ ((natToDec salt).data ++ '$' :: p.data) := by
  unfold hashPassword
  rw [string_data_append, string_data_append, string_data_append]
  simp

theorem takeWhile_append_marker {l m : List Char}
    (hl : ∀ ch ∈ l, ch ≠ '$') :
    (l ++ '$' :: m).takeWhile (fun ch => ch ≠ '$') = l := by
  induction l with
  | nil => simp [List.takeWhile]
  | cons a t ih =>
    have ha : a ≠ '$' := hl a (List.mem_cons_self a t)
    simp only [List.cons_append, List.takeWhile_cons]
    rw [if_pos (by simpa using ha)]
    rw [ih (fun ch hm => hl ch (List.mem_cons_of_mem a hm))]

/-- Round trip: verifying the correct plaintext against its own digest
succeeds, and verifying any other plaintext fails. -/
theorem comparePassword_hashPassword (salt : Nat) (p cand : String) :
    comparePassword cand (hashPassword salt p) = true ↔ cand = p := by
  unfold comparePassword
  rw [hashPassword_data]
  have hdrop : (("bcrypt$".data ++ ((natToDec salt).data ++ '$' :: p.data)).drop 7)
      = (natToDec salt).data ++ '$' :: p.data := by
    have h7 : ("bcrypt$".data).length = 7 := by decide
    rw [List.drop_append_of_le_length (by omega)]
    simp [h7]
  rw [hdrop, takeWhile_append_marker
    (fun ch hm => (natToDec_no_dash_dollar hm).2)]
  simp only [decide_eq_true_eq, List.append_cancel_left_eq, List.cons.injEq,
    true_and, ← String.ext_iff]
  exact eq_comm

/-- A digest is strictly longer than its plaintext, hence never equal to it. -/
theorem hashPassword_ne_plaintext (salt : Nat) (p : String) :
    hashPassword salt p ≠ p := by
  intro h
  have hdata := congrArg String.data h
  rw [hashPassword_data] at hdata
  have hlen := congrArg List.length hdata
  have h7 : ("bcrypt$".data).length = 7 := by decide
  simp only [List.length_append, List.length_cons, h7] at hlen
  omega

/-! ### Configuration

Embeds `src/config/config.js`.  The two JWT secrets come from the environment
(`JWT_SECRET_ACCESS`, `JWT_SECRET_REFRESH`); they are modelled as two distinct
opaque constants, as mandated by section 4.2 of the spec.  Expiries use the
default values `15m` and `7d`, in milliseconds to match the `Date.now()`
clock. -/

def secretAccess : String := "JWT_SECRET_ACCESS"

def secretRefresh : String := "JWT_SECRET_REFRESH"

def accessExpiryMs : Nat := 15 * 60 * 1000

def refreshExpiryMs : Nat := 7 * 24 * 60 * 60 * 1000

def bcryptSaltRounds : Nat := 12

/-! ### Token codec

Modelled from the spec: the Token Codec of section 4.2, implemented in the
source by the external `jsonwebtoken` library.  A well-formed token is a
payload signed under a secret with an expiry instant; every other cookie
string is malformed.  `jwtVerify` embeds
`jwt.verify(token, secret, ignoreExpiration)`: signature check first, then the
expiry claim unless expiry is ignored. -/

/-- Claims carried by the two token kinds minted in `generateAuthTokens`:
access tokens carry `id` and `username`, refresh tokens carry `id` and
`jti`. -/
inductive JwtPayload where
  | access (id username : String)
  | refresh (id jti : String)
deriving DecidableEq

/-- A cookie-borne token value: either a payload signed under a secret with an
expiry, or an arbitrary malformed string (garbage input). -/
inductive Token where
  | signed (payload : JwtPayload) (secret : String) (exp : Nat)
  | malformed (raw : String)
deriving DecidableEq

inductive JwtError where
  | invalidSignature
  | expired
  | badToken
deriving DecidableEq

/-- Model of `jwt.verify`.  A token is expired when the clock has reached its
expiry instant. -/
def jwtVerify (t : Token) (secret : String) (nowMillis : Nat)
    (ignoreExpiration : Bool) : Except JwtError JwtPayload :=
  match t with
  | .malformed _ => .error .badToken
  | .signed p sec exp =>
    if sec ≠ secret then .error .invalidSignature
    else if !ignoreExpiration && exp ≤ nowMillis then .error .expired
    else .ok p

/-- Principal id embedded in a payload (`decoded.id`). -/
def payloadId : JwtPayload → String
  | .access i _ => i
  | .refresh i _ => i

/-- Refresh token id embedded in a payload (`decoded.jti`).  Destructuring a
payload that carries no `jti` yields the JavaScript `undefined` value,
represented here by a marker string; this case is unreachable in the refresh
and logout flows because access tokens are signed under a different secret. -/
def payloadJti : JwtPayload → String
  | .access _ _ => "undefined"
  | .refresh _ j => j

/-! ### Credential store data model

Embeds the `User` schema of `src/models/User.js`: username (unique), email
(unique), password digest (`select: false`: hidden from query projections
unless explicitly selected), the revocation list
`blacklistedRefreshTokens`, and the avatar with its default.  Mongoose
`createdAt` / `updatedAt` bookkeeping is not modelled.  The store is the list
of user documents; `_id` values are assigned by the store and are unique in
Mongo. -/

structure User where
  id : String
  username : String
  email : String
  password : String
  blacklistedRefreshTokens : List String
  avatar : String
deriving DecidableEq

def defaultAvatar : String := "/public/defaults/avatar.png"

abbrev Store : Type := List User

/-- Model of the user lookup by email, `User.findOne` on the email field. -/
def findByEmail (s : Store) (email : String) : Option User :=
  List.find? (fun u => u.email == email) s

/-- Model of `User.findById(id)`. -/
def findById (s : Store) (id : String) : Option User :=
  List.find? (fun u => u.id == id) s

/-- Model of the user lookup by username or email used by registration
(`User.findOne` with an or-query over both fields). -/
def findByIdentityOrEmail (s : Store) (username email : String) : Option User :=
  List.find? (fun u => u.username == username || u.email == email) s

/-- Single-document update at `_id` granularity: Mongo `_id` values are unique,
so `findByIdAndUpdate` and `document.save()` rewrite exactly the first (only)
matching document. -/
def updateById (s : Store) (id : String) (f : User → User) : Store :=
  match s with
  | [] => []
  | u :: rest => if u.id == id then f u :: rest else u :: updateById rest id f

/-! ### Session manager operations

Embeds the four operations of `src/services/auth.service.js`.  Randomness and
the clock are externalized: the salt produced by `bcrypt.genSalt`, the `_id`
assigned by the store and the `Date.now()` reading are explicit arguments.
Thrown `AppError` values and `jwt.verify` exceptions become `Except`
errors. -/

structure AppError where
  message : String
  statusCode : Nat
  code : String
deriving DecidableEq

def userExistsError : AppError :=
  ⟨"User with this username or email already exists.", 409, "USER_EXISTS"⟩

def authFailedError : AppError :=
  ⟨"Invalid email or password.", 401, "AUTH_FAILED"⟩

def invalidTokenError : AppError :=
  ⟨"Invalid refresh token payload.", 401, "AUTH_INVALID_TOKEN"⟩

def compromisedError : AppError :=
  ⟨"Compromised refresh token used. All sessions logged out.", 401, "AUTH_COMPROMISED"⟩

/-- Failures escaping `refreshAuthTokens`: either a `jwt.verify` exception or
a thrown `AppError`. -/
inductive AuthFailure where
  | jwt (e : JwtError)
  | app (e : AppError)
deriving DecidableEq

/-- Embeds `generateAuthTokens`: mints the access and refresh pair for a user
at a clock reading, the refresh token carrying the jti
`` `${user._id}-${Date.now()}` ``. -/
def generateAuthTokens (nowMillis : Nat) (u : User) : Token × Token :=
  (Token.signed (.access u.id u.username) secretAccess (nowMillis + accessExpiryMs),
   Token.signed (.refresh u.id (genJti u.id nowMillis)) secretRefresh
     (nowMillis + refreshExpiryMs))

/-- Embeds `registerUser`: reject when a user with the same username or email
exists, otherwise create the user (the pre-save hook hashing the
password), mint a token pair, and return the created document together with
the tokens. -/
def registerUser (s : Store) (nowMillis : Nat) (newId : String) (salt : Nat)
    (username email password : String) :
    Except AppError (User × Token × Token) × Store :=
  match findByIdentityOrEmail s username email with
  | some _ => (.error userExistsError, s)
  | none =>
    let u : User :=
      ⟨newId, username, email, hashPassword salt password, [], defaultAvatar⟩
    let pair := generateAuthTokens nowMillis u
    (.ok (u, pair.1, pair.2), s ++ [u])

/-- Embeds `loginUser`: find the user by email with the password digest
explicitly selected; a missing user and a failed digest check raise the same
generic error; on success mint a token pair.  No store write. -/
def loginUser (s : Store) (nowMillis : Nat) (email password : String) :
    Except AppError (User × Token × Token) :=
  match findByEmail s email with
  | none => .error authFailedError
  | some u =>
    if comparePassword password u.password then
      .ok (u, (generateAuthTokens nowMillis u).1, (generateAuthTokens nowMillis u).2)
    else
      .error authFailedError

/-- Store update performed by the push operator on `blacklistedRefreshTokens`:
append one token id to the revocation list of a document. -/
def pushJti (j : String) (v : User) : User :=
  { v with blacklistedRefreshTokens := v.blacklistedRefreshTokens ++ [j] }

/-- Store update performed by the set operator on `blacklistedRefreshTokens`:
wipe the revocation list of a document. -/
def wipeBlacklist (v : User) : User :=
  { v with blacklistedRefreshTokens := [] }

/-- Embeds `refreshAuthTokens`: verify the refresh token (expiry enforced),
load the principal, fail on replay of a blacklisted jti after wiping the
entire blacklist, otherwise mint a new pair and append the old jti to the
blacklist. -/
def refreshAuthTokens (s : Store) (nowMillis : Nat) (t : Token) :
    Except AuthFailure (User × Token × Token) × Store :=
  match jwtVerify t secretRefresh nowMillis false with
  | .error e => (.error (.jwt e), s)
  | .ok p =>
    match findById s (payloadId p) with
    | none => (.error (.app invalidTokenError), s)
    | some u =>
      if payloadJti p ∈ u.blacklistedRefreshTokens then
        (.error (.app compromisedError), updateById s (payloadId p) wipeBlacklist)
      else
        (.ok (pushJti (payloadJti p) u, (generateAuthTokens nowMillis u).1,
              (generateAuthTokens nowMillis u).2),
         updateById s (payloadId p) (pushJti (payloadJti p)))

/-- Embeds `logoutUser`: verify the refresh token with expiry ignored; on any
verification failure swallow the error; otherwise append the jti to the
principal, a no-op when the principal is absent.  Always reports success. -/
def logoutUser (s : Store) (nowMillis : Nat) (t : Token) : Bool × Store :=
  match jwtVerify t secretRefresh nowMillis true with
  | .error _ => (true, s)
  | .ok p =>
    (true, updateById s (payloadId p) (pushJti (payloadJti p)))

/-! ### Store lemmas -/

theorem updateById_cons (u : User) (rest : Store) (pid : String)
    (f : User → User) :
    updateById (u :: rest) pid f =
      if u.id == pid then f u :: rest else u :: updateById rest pid f := rfl

theorem findById_cons (u : User) (rest : Store) (pid : String) :
    findById (u :: rest) pid =
      if u.id == pid then some u else findById rest pid := by
  unfold findById
  by_cases h : u.id == pid
  · rw [List.find?_cons_of_pos (p := fun v => v.id == pid) rest h, if_pos h]
  · rw [List.find?_cons_of_neg (p := fun v => v.id == pid) rest (by simpa using h),
      if_neg h]

theorem updateById_length (s : Store) (pid : String) (f : User → User) :
    (updateById s pid f).length = s.length := by
  induction s with
  | nil => rfl
  | cons u rest ih =>
    rw [updateById_cons]
    by_cases h : u.id == pid
    · simp [h]
    · simp [h, ih]

theorem updateById_getElem (s : Store) (pid : String) (f : User → User) :
    ∀ i : Nat,
      (updateById s pid f)[i]? = s[i]?
        ∨ ∃ u, s[i]? = some u ∧ u.id = pid
            ∧ (updateById s pid f)[i]? = some (f u) := by
  induction s with
  | nil => intro i; exact Or.inl rfl
  | cons u rest ih =>
    intro i
    by_cases h : u.id == pid
    · have hrw : updateById (u :: rest) pid f = f u :: rest := by
        rw [updateById_cons, if_pos h]
      match i with
      | 0 =>
        exact Or.inr ⟨u, by simp, by simpa using h, by rw [hrw]; simp⟩
      | j + 1 =>
        rw [hrw, List.getElem?_cons_succ, List.getElem?_cons_succ]
        exact Or.inl rfl
    · have hrw : updateById (u :: rest) pid f = u :: updateById rest pid f := by
        rw [updateById_cons, if_neg h]
      match i with
      | 0 => rw [hrw]; exact Or.inl (by simp)
      | j + 1 =>
        rw [hrw, List.getElem?_cons_succ, List.getElem?_cons_succ]
        exact ih j

theorem findById_updateById (s : Store) (pid : String) (f : User → User)
    (hf : ∀ v, (f v).id = v.id) :
    findById (updateById s pid f) pid = (findById s pid).map f := by
  induction s with
  | nil => rfl
  | cons u rest ih =>
    by_cases h : u.id == pid
    · have hrw : updateById (u :: rest) pid f = f u :: rest := by
        rw [updateById_cons, if_pos h]
      have hfu : ((f u).id == pid) = true := by rw [hf u]; exact h
      rw [hrw, findById_cons, if_pos hfu, findById_cons, if_pos h]
      rfl
    · have hrw : updateById (u :: rest) pid f = u :: updateById rest pid f := by
        rw [updateById_cons, if_neg h]
      rw [hrw, findById_cons, if_neg h, findById_cons, if_neg h]
      exact ih

theorem updateById_of_findById_none (s : Store) (pid : String) (f : User → User)
    (h : findById s pid = none) : updateById s pid f = s := by
  induction s with
  | nil => rfl
  | cons u rest ih =>
    rw [findById_cons] at h
    by_cases hu : u.id == pid
    · rw [if_pos hu] at h; exact absurd h (by simp)
    · rw [if_neg hu] at h
      rw [updateById_cons, if_neg hu, ih h]

/-! ### Refresh path helper lemmas -/

/-- Refresh branch equation: verification failure propagates, no store
write. -/
theorem refresh_verify_error (s : Store) (nowMillis : Nat) (t : Token)
    (e : JwtError) (hv : jwtVerify t secretRefresh nowMillis false = .error e) :
    refreshAuthTokens s nowMillis t = (.error (.jwt e), s) := by
  simp only [refreshAuthTokens, hv]

/-- Refresh branch equation: missing principal raises the invalid-token
error, no store write. -/
theorem refresh_user_missing (s : Store) (nowMillis : Nat) (t : Token)
    (p : JwtPayload) (hv : jwtVerify t secretRefresh nowMillis false = .ok p)
    (hfind : findById s (payloadId p) = none) :
    refreshAuthTokens s nowMillis t = (.error (.app invalidTokenError), s) := by
  simp only [refreshAuthTokens, hv, hfind]

/-- Refresh branch equation: replay of a blacklisted jti wipes the blacklist
and raises the compromise error. -/
theorem refresh_replay (s : Store) (nowMillis : Nat) (t : Token)
    (p : JwtPayload) (u : User)
    (hv : jwtVerify t secretRefresh nowMillis false = .ok p)
    (hfind : findById s (payloadId p) = some u)
    (hmem : payloadJti p ∈ u.blacklistedRefreshTokens) :
    refreshAuthTokens s nowMillis t
      = (.error (.app compromisedError),
         updateById s (payloadId p) wipeBlacklist) := by
  simp only [refreshAuthTokens, hv, hfind, if_pos hmem]

/-- Refresh branch equation: a fresh jti rotates, appending the old jti. -/
theorem refresh_rotate (s : Store) (nowMillis : Nat) (t : Token)
    (p : JwtPayload) (u : User)
    (hv : jwtVerify t secretRefresh nowMillis false = .ok p)
    (hfind : findById s (payloadId p) = some u)
    (hmem : payloadJti p ∉ u.blacklistedRefreshTokens) :
    refreshAuthTokens s nowMillis t
      = (.ok (pushJti (payloadJti p) u, (generateAuthTokens nowMillis u).1,
              (generateAuthTokens nowMillis u).2),
         updateById s (payloadId p) (pushJti (payloadJti p))) := by
  simp only [refreshAuthTokens, hv, hfind, if_neg hmem]

/-- A well-formed, unexpired refresh token whose jti is not blacklisted
rotates: new pair minted, old jti appended. -/
theorem refresh_ok_of_fresh (s : Store) (nowMillis : Nat) (pid j : String)
    (exp : Nat) (u : User)
    (hfind : findById s pid = some u)
    (hfresh : j ∉ u.blacklistedRefreshTokens)
    (hexp : nowMillis < exp) :
    refreshAuthTokens s nowMillis (Token.signed (.refresh pid j) secretRefresh exp)
      = (.ok (pushJti j u,
              (generateAuthTokens nowMillis u).1, (generateAuthTokens nowMillis u).2),
         updateById s pid (pushJti j)) := by
  have hnle : ¬ exp ≤ nowMillis := by omega
  unfold refreshAuthTokens
  have hverify : jwtVerify (Token.signed (.refresh pid j) secretRefresh exp)
      secretRefresh nowMillis false = .ok (.refresh pid j) := by
    simp [jwtVerify, hnle]
  rw [hverify]
  simp only [payloadId, payloadJti]
  rw [hfind]
  simp only [if_neg hfresh]

/-- A well-formed, unexpired refresh token whose jti is already blacklisted
triggers the compromise response: blacklist wiped, `AUTH_COMPROMISED`
raised. -/
theorem refresh_replay_of_blacklisted (s : Store) (nowMillis : Nat)
    (pid j : String) (exp : Nat) (u : User)
    (hfind : findById s pid = some u)
    (hmem : j ∈ u.blacklistedRefreshTokens)
    (hexp : nowMillis < exp) :
    refreshAuthTokens s nowMillis (Token.signed (.refresh pid j) secretRefresh exp)
      = (.error (.app compromisedError),
         updateById s pid wipeBlacklist) := by
  have hnle : ¬ exp ≤ nowMillis := by omega
  unfold refreshAuthTokens
  have hverify : jwtVerify (Token.signed (.refresh pid j) secretRefresh exp)
      secretRefresh nowMillis false = .ok (.refresh pid j) := by
    simp [jwtVerify, hnle]
  rw [hverify]
  simp only [payloadId, payloadJti]
  rw [hfind]
  simp only [if_pos hmem]

/-! ### Concrete scenario values used by witnesses and counterexamples -/

/-- A registered principal with an empty revocation set. -/
def alice : User :=
  ⟨"u1", "alice", "a@x.com", hashPassword 3 "Passw0rd1", [], defaultAvatar⟩

/-- The same principal with one retired token id. -/
def aliceRetired : User :=
  ⟨"u1", "alice", "a@x.com", hashPassword 3 "Passw0rd1", ["u1-5"], defaultAvatar⟩

/-- A refresh token of `alice` with jti `u1-5`, far from expiry. -/
def tokenR0 : Token := Token.signed (.refresh "u1" "u1-5") secretRefresh 99999

/-- A refresh token of `alice` that expires at clock reading 5. -/
def tokenExpired : Token := Token.signed (.refresh "u1" "u1-3") secretRefresh 5

/-! ### Claims -/

/-- Claim C1: for a freshly issued refresh token (principal present, jti not
yet blacklisted, token unexpired), `Refresh` succeeds once, returning the
rotated principal and a newly minted pair; a second `Refresh` with the same
token afterwards wipes the entire revocation set of the principal and fails
with the `AUTH_COMPROMISED` error. -/
theorem claim_c1_replay_wipes_and_fails
    (s : Store) (now1 now2 : Nat) (pid j0 : String) (exp : Nat) (u : User)
    (hfind : findById s pid = some u)
    (hfresh : j0 ∉ u.blacklistedRefreshTokens)
    (hexp1 : now1 < exp) (hexp2 : now2 < exp) :
    (refreshAuthTokens s now1 (Token.signed (.refresh pid j0) secretRefresh exp)).1
        = .ok (pushJti j0 u,
               (generateAuthTokens now1 u).1, (generateAuthTokens now1 u).2)
      ∧ (refreshAuthTokens
            (refreshAuthTokens s now1 (Token.signed (.refresh pid j0) secretRefresh exp)).2
            now2 (Token.signed (.refresh pid j0) secretRefresh exp)).1
        = .error (.app compromisedError)
      ∧ findById
          (refreshAuthTokens
            (refreshAuthTokens s now1 (Token.signed (.refresh pid j0) secretRefresh exp)).2
            now2 (Token.signed (.refresh pid j0) secretRefresh exp)).2 pid
        = some { u with blacklistedRefreshTokens := [] } := by
  have h1 := refresh_ok_of_fresh s now1 pid j0 exp u hfind hfresh hexp1
  have hs1 : (refreshAuthTokens s now1
      (Token.signed (.refresh pid j0) secretRefresh exp)).2
      = updateById s pid (pushJti j0) := by
    rw [h1]
  have hfind1 : findById (updateById s pid (pushJti j0)) pid
      = some (pushJti j0 u) := by
    rw [findById_updateById s pid (pushJti j0) (fun v => rfl), hfind]
    rfl
  have h2 := refresh_replay_of_blacklisted
    (updateById s pid (pushJti j0)) now2 pid j0 exp (pushJti j0 u)
    hfind1 (by simp [pushJti]) hexp2
  refine ⟨by rw [h1], ?_, ?_⟩
  · rw [hs1, h2]
  · rw [hs1, h2]
    show findById (updateById _ pid wipeBlacklist) pid = _
    rw [findById_updateById _ pid wipeBlacklist (fun v => rfl), hfind1]
    rfl

/-- Claim C1 witness at a concrete store, principal and token. -/
theorem claim_c1_witness :
    (refreshAuthTokens [alice] 10 tokenR0).1
        = .ok (pushJti "u1-5" alice,
               (generateAuthTokens 10 alice).1, (generateAuthTokens 10 alice).2)
      ∧ (refreshAuthTokens (refreshAuthTokens [alice] 10 tokenR0).2 11 tokenR0).1
        = .error (.app compromisedError)
      ∧ findById
          (refreshAuthTokens (refreshAuthTokens [alice] 10 tokenR0).2 11 tokenR0).2 "u1"
        = some { alice with blacklistedRefreshTokens := [] } :=
  claim_c1_replay_wipes_and_fails [alice] 10 11 "u1" "u1-5" 99999 alice
    (by decide) (by decide) (by decide) (by decide)

/-- Claim C2 counterexample: after one rotation the jti `u1-5` sits in the
revocation set (the token is retired), yet a later `Refresh` with that very
token succeeds again, because the compromise wipe triggered by the second
call emptied the revocation set.  There is a path back from Retired to
Active. -/
theorem claim_c2_counterexample :
    (findById (refreshAuthTokens [alice] 0 tokenR0).2 "u1").map
        (fun v => v.blacklistedRefreshTokens) = some ["u1-5"]
    ∧ (refreshAuthTokens
         (refreshAuthTokens (refreshAuthTokens [alice] 0 tokenR0).2 1 tokenR0).2
         2 tokenR0).1.isOk = true :=
  ⟨by decide, by decide⟩

/-- Claim C2 amended: a retired refresh token can never rotate again as long
as its jti remains in the revocation set of its principal; the entry is only
removable by the compromise wipe, after which the token rotates again. -/
theorem claim_c2_amended_retired_never_rotates
    (s : Store) (nowMillis : Nat) (pid j : String) (exp : Nat) (u : User)
    (hfind : findById s pid = some u)
    (hmem : j ∈ u.blacklistedRefreshTokens) :
    ((refreshAuthTokens s nowMillis
        (Token.signed (.refresh pid j) secretRefresh exp)).1).isOk = false := by
  by_cases hexp : nowMillis < exp
  · rw [refresh_replay_of_blacklisted s nowMillis pid j exp u hfind hmem hexp]
    rfl
  · have hle : exp ≤ nowMillis := by omega
    unfold refreshAuthTokens
    have hv : jwtVerify (Token.signed (.refresh pid j) secretRefresh exp)
        secretRefresh nowMillis false = .error .expired := by
      simp [jwtVerify, hle]
    rw [hv]
    rfl

/-- Claim C2 amended witness at a concrete retired token. -/
theorem claim_c2_amended_witness :
    ((refreshAuthTokens [aliceRetired] 0 tokenR0).1).isOk = false :=
  claim_c2_amended_retired_never_rotates [aliceRetired] 0 "u1" "u1-5" 99999
    aliceRetired (by decide) (by decide)

/-- Claim C3: a login failing because no principal carries the email and a
login failing because the digest check rejects the password produce the very
same error value: same kind, same status, same generic message. -/
theorem claim_c3_login_failures_indistinguishable
    (s : Store) (nowMillis : Nat) (email pw : String) :
    (findByEmail s email = none →
      loginUser s nowMillis email pw = .error authFailedError)
    ∧ ∀ u, findByEmail s email = some u → comparePassword pw u.password = false →
        loginUser s nowMillis email pw = .error authFailedError := by
  constructor
  · intro h
    unfold loginUser
    rw [h]
  · intro u h hcmp
    unfold loginUser
    rw [h]
    simp [hcmp]

/-- Claim C3 witness: one concrete login against an absent email and one
against a present email with a wrong password, both yielding the identical
error value. -/
theorem claim_c3_witness :
    loginUser [] 0 "ghost@x.com" "pw" = .error authFailedError
    ∧ loginUser [alice] 0 "a@x.com" "wrongpass" = .error authFailedError :=
  ⟨(claim_c3_login_failures_indistinguishable [] 0 "ghost@x.com" "pw").1 (by decide),
   (claim_c3_login_failures_indistinguishable [alice] 0 "a@x.com" "wrongpass").2
     alice (by decide) (by decide)⟩

/-- Claim C6: logout reports success on every input token — garbage, expired,
forged, or valid, with or without a matching principal. -/
theorem claim_c6_logout_always_succeeds (s : Store) (nowMillis : Nat) (t : Token) :
    (logoutUser s nowMillis t).1 = true := by
  unfold logoutUser
  split <;> rfl

/-- Claim C7 counterexample: an expired but authentically signed token fails
ordinary verification, yet logout appends its tokenId anyway, because logout
verifies with expiry ignored — the stored state changes. -/
theorem claim_c7_counterexample :
    jwtVerify tokenExpired secretRefresh 10 false = .error .expired
    ∧ (logoutUser [alice] 10 tokenExpired).2 ≠ [alice]
    ∧ (findById (logoutUser [alice] 10 tokenExpired).2 "u1").map
        (fun v => v.blacklistedRefreshTokens) = some ["u1-3"] :=
  ⟨by decide, by decide, by decide⟩

/-- Claim C7 amended: logout leaves the store unchanged whenever the token
fails the expiry-ignoring verification (malformed or wrong signature) or
names an absent principal; an expired authentic token, by contrast, still has
its tokenId appended. -/
theorem claim_c7_amended_swallowed_failures_leave_state
    (s : Store) (nowMillis : Nat) (t : Token)
    (h : ∀ p, jwtVerify t secretRefresh nowMillis true = .ok p →
      findById s (payloadId p) = none) :
    (logoutUser s nowMillis t).2 = s := by
  unfold logoutUser
  cases hv : jwtVerify t secretRefresh nowMillis true with
  | error e => rfl
  | ok p => exact updateById_of_findById_none s (payloadId p) _ (h p hv)

/-- Claim C7 amended witness: a garbage token leaves a concrete store
untouched. -/
theorem claim_c7_amended_witness :
    (logoutUser [alice] 0 (Token.malformed "not-a-jwt")).2 = [alice] :=
  claim_c7_amended_swallowed_failures_leave_state [alice] 0
    (Token.malformed "not-a-jwt") (fun _p h => nomatch h)

/-- A token-mint event: one invocation of `generateAuthTokens`.  Distinct
invocations are distinguished by the invocation index `seq`; the minted
refresh tokenId is computed from the principal id and the `Date.now()`
reading alone. -/
structure MintEvent where
  principalId : String
  atMillis : Nat
  seq : Nat
deriving DecidableEq

/-- Refresh tokenId produced by a mint event, exactly as `generateAuthTokens`
computes it. -/
def mintedJti (e : MintEvent) : String := genJti e.principalId e.atMillis

/-- Claim C4 counterexample: two distinct token-mint events for the same
principal within the same millisecond produce the identical tokenId, so
tokenId generation is not unique across all mint events. -/
theorem claim_c4_counterexample :
    (⟨"507f191e810c19729de860ea", 1700000000000, 0⟩ : MintEvent)
        ≠ (⟨"507f191e810c19729de860ea", 1700000000000, 1⟩ : MintEvent)
    ∧ mintedJti ⟨"507f191e810c19729de860ea", 1700000000000, 0⟩
        = mintedJti ⟨"507f191e810c19729de860ea", 1700000000000, 1⟩ :=
  ⟨by decide, rfl⟩

/-- Claim C4 amended: tokenIds differ across mint events whenever the
principal ids differ or the clock readings differ (ObjectId hex principal ids
contain no dash); only two mints for the same principal in the same
millisecond collide. -/
theorem claim_c4_amended_jti_unique (e1 e2 : MintEvent)
    (h1 : '-' ∉ e1.principalId.data) (h2 : '-' ∉ e2.principalId.data)
    (hne : e1.principalId ≠ e2.principalId ∨ e1.atMillis ≠ e2.atMillis) :
    mintedJti e1 ≠ mintedJti e2 := by
  intro h
  have hinj := genJti_inj h1 h2 h
  rcases hne with hp | ht
  · exact hp hinj.1
  · exact ht hinj.2

/-- Claim C4 amended witness at two concrete mint events. -/
theorem claim_c4_amended_witness :
    mintedJti ⟨"aaa", 7, 0⟩ ≠ mintedJti ⟨"bbb", 7, 0⟩ :=
  claim_c4_amended_jti_unique ⟨"aaa", 7, 0⟩ ⟨"bbb", 7, 0⟩
    (by decide) (by decide) (Or.inl (by decide))

/-- Claim C5 (code defect, evaluated at the failing input): the register
success payload carries the created document with the populated password
digest field, and the login success payload likewise carries the digest
(`loginUser` selects it explicitly).  Mongoose `select: false` hides the
field from query projections only, not from documents returned by `create`,
contrary to the comment in `registerUser`. -/
theorem claim_c5_payload_contains_digest :
    ((registerUser [] 0 "u1" 12 "alice" "a@x.com" "Passw0rd1").1.toOption.map
        (fun x => x.1.password)) = some (hashPassword 12 "Passw0rd1")
    ∧ hashPassword 12 "Passw0rd1" ≠ ""
    ∧ ((loginUser [alice] 1 "a@x.com" "Passw0rd1").toOption.map
        (fun x => x.1.password)) = some (hashPassword 3 "Passw0rd1")
    ∧ hashPassword 3 "Passw0rd1" ≠ "" :=
  ⟨by decide, by decide, by decide, by decide⟩

/-- Claim C8: for a valid fresh triple, registration succeeds, a subsequent
login with the same email and password succeeds and returns the same
principal, and the stored digest is never the plaintext password. -/
theorem claim_c8_register_then_login
    (s : Store) (now1 now2 : Nat) (newId : String) (salt : Nat)
    (username email pw : String)
    (_hvu : 3 ≤ username.length) (_hvp : 8 ≤ pw.length)
    (hfresh : ∀ u ∈ s, u.username ≠ username ∧ u.email ≠ email) :
    ∃ u a r, (registerUser s now1 newId salt username email pw).1 = .ok (u, a, r)
      ∧ (∃ a2 r2, loginUser (registerUser s now1 newId salt username email pw).2
            now2 email pw = .ok (u, a2, r2))
      ∧ findByEmail (registerUser s now1 newId salt username email pw).2 email
          = some u
      ∧ u.password ≠ pw := by
  have hnone : findByIdentityOrEmail s username email = none := by
    unfold findByIdentityOrEmail
    rw [List.find?_eq_none]
    intro u hu
    simp [(hfresh u hu).1, (hfresh u hu).2]
  have hreg : registerUser s now1 newId salt username email pw
      = (.ok (⟨newId, username, email, hashPassword salt pw, [], defaultAvatar⟩,
              (generateAuthTokens now1
                ⟨newId, username, email, hashPassword salt pw, [], defaultAvatar⟩).1,
              (generateAuthTokens now1
                ⟨newId, username, email, hashPassword salt pw, [], defaultAvatar⟩).2),
         s ++ [⟨newId, username, email, hashPassword salt pw, [], defaultAvatar⟩]) := by
    unfold registerUser
    rw [hnone]
  have hmail : findByEmail
      (s ++ [⟨newId, username, email, hashPassword salt pw, [], defaultAvatar⟩]) email
      = some ⟨newId, username, email, hashPassword salt pw, [], defaultAvatar⟩ := by
    unfold findByEmail
    rw [List.find?_append]
    have hleft : List.find? (fun u => u.email == email) s = none := by
      rw [List.find?_eq_none]
      intro u hu
      simp [(hfresh u hu).2]
    rw [hleft]
    simp
  refine ⟨⟨newId, username, email, hashPassword salt pw, [], defaultAvatar⟩, _, _,
    by rw [hreg], ?_, ?_, hashPassword_ne_plaintext salt pw⟩
  · refine ⟨(generateAuthTokens now2
        ⟨newId, username, email, hashPassword salt pw, [], defaultAvatar⟩).1,
      (generateAuthTokens now2
        ⟨newId, username, email, hashPassword salt pw, [], defaultAvatar⟩).2, ?_⟩
    have hs2 : (registerUser s now1 newId salt username email pw).2
        = s ++ [⟨newId, username, email, hashPassword salt pw, [], defaultAvatar⟩] := by
      rw [hreg]
    rw [hs2]
    unfold loginUser
    rw [hmail]
    simp [comparePassword_hashPassword]
  · have hs2 : (registerUser s now1 newId salt username email pw).2
        = s ++ [⟨newId, username, email, hashPassword salt pw, [], defaultAvatar⟩] := by
      rw [hreg]
    rw [hs2, hmail]

/-- Claim C8 witness at a concrete valid triple over the empty store. -/
theorem claim_c8_witness :
    ∃ u a r, (registerUser [] 0 "u9" 5 "bob" "b@x.com" "Secret123").1 = .ok (u, a, r)
      ∧ (∃ a2 r2, loginUser (registerUser [] 0 "u9" 5 "bob" "b@x.com" "Secret123").2
            1 "b@x.com" "Secret123" = .ok (u, a2, r2))
      ∧ findByEmail (registerUser [] 0 "u9" 5 "bob" "b@x.com" "Secret123").2 "b@x.com"
          = some u
      ∧ u.password ≠ "Secret123" :=
  claim_c8_register_then_login [] 0 1 "u9" 5 "bob" "b@x.com" "Secret123"
    (by decide) (by decide) (by decide)

/-- Every stored principal has pairwise-distinct revocation-set entries. -/
def RevocationNodup (s : Store) : Prop :=
  ∀ u ∈ s, u.blacklistedRefreshTokens.Nodup

instance (s : Store) : Decidable (RevocationNodup s) :=
  inferInstanceAs (Decidable (∀ u ∈ s, u.blacklistedRefreshTokens.Nodup))

/-- Users of the updated store: every position is either untouched or holds
the update of the principal found at that id. -/
theorem updateById_frame {s : Store} {pid : String} {f : User → User} {u : User}
    (h : findById s pid = some u) :
    ∀ i : Nat, (updateById s pid f)[i]? = s[i]?
      ∨ (s[i]? = some u ∧ (updateById s pid f)[i]? = some (f u)) := by
  induction s with
  | nil => exact absurd h (by simp [findById])
  | cons w rest ih =>
    rw [findById_cons] at h
    intro i
    by_cases hw : w.id == pid
    · rw [if_pos hw] at h
      have hu : w = u := by injection h
      have hrw : updateById (w :: rest) pid f = f w :: rest := by
        rw [updateById_cons, if_pos hw]
      match i with
      | 0 => exact Or.inr ⟨by simp [hu], by rw [hrw]; simp [hu]⟩
      | k + 1 =>
        rw [hrw, List.getElem?_cons_succ, List.getElem?_cons_succ]
        exact Or.inl rfl
    · rw [if_neg hw] at h
      have hrw : updateById (w :: rest) pid f = w :: updateById rest pid f := by
        rw [updateById_cons, if_neg hw]
      match i with
      | 0 => rw [hrw]; exact Or.inl (by simp)
      | k + 1 =>
        rw [hrw, List.getElem?_cons_succ, List.getElem?_cons_succ]
        exact ih h k

/-- Membership after an update comes from an untouched user or from the
update applied to the found user. -/
theorem mem_updateById {s : Store} {pid : String} {f : User → User} {u v : User}
    (hfind : findById s pid = some u)
    (h : v ∈ updateById s pid f) : v ∈ s ∨ v = f u := by
  induction s with
  | nil => exact absurd hfind (by simp [findById])
  | cons w rest ih =>
    rw [findById_cons] at hfind
    by_cases hw : w.id == pid
    · rw [if_pos hw] at hfind
      have hu : w = u := by injection hfind
      have hrw : updateById (w :: rest) pid f = f w :: rest := by
        rw [updateById_cons, if_pos hw]
      rw [hrw] at h
      rcases List.mem_cons.mp h with h1 | h1
      · exact Or.inr (by rw [h1, hu])
      · exact Or.inl (List.mem_cons_of_mem w h1)
    · rw [if_neg hw] at hfind
      have hrw : updateById (w :: rest) pid f = w :: updateById rest pid f := by
        rw [updateById_cons, if_neg hw]
      rw [hrw] at h
      rcases List.mem_cons.mp h with h1 | h1
      · exact Or.inl (by rw [h1]; exact List.mem_cons_self w rest)
      · rcases ih hfind h1 with h2 | h2
        · exact Or.inl (List.mem_cons_of_mem w h2)
        · exact Or.inr h2

/-- Claim C9 counterexample: a store satisfying the uniqueness invariant on
which one further logout with an already-retired token produces a duplicate
revocation-set entry — logout does not preserve the invariant. -/
theorem claim_c9_counterexample :
    RevocationNodup (logoutUser [alice] 0 tokenR0).2
    ∧ ¬ RevocationNodup (logoutUser (logoutUser [alice] 0 tokenR0).2 1 tokenR0).2 :=
  ⟨by decide, by decide⟩

/-- Claim C9 amended: Register and Refresh preserve uniqueness of
revocation-set entries (Login never writes the store); Logout appends
unconditionally and can duplicate an entry when the same token is logged out
twice. -/
theorem claim_c9_amended_nodup_preserved
    (s : Store) (hinv : RevocationNodup s) :
    (∀ nowMillis newId salt username email pw,
      RevocationNodup (registerUser s nowMillis newId salt username email pw).2)
    ∧ (∀ nowMillis t, RevocationNodup (refreshAuthTokens s nowMillis t).2) := by
  constructor
  · intro nowMillis newId salt username email pw
    unfold registerUser
    cases hfind : findByIdentityOrEmail s username email with
    | some w => exact hinv
    | none =>
      intro v hv
      rcases List.mem_append.mp hv with h1 | h1
      · exact hinv v h1
      · simp at h1
        rw [h1]
        exact List.nodup_nil
  · intro nowMillis t
    rcases hv : jwtVerify t secretRefresh nowMillis false with e | p
    · rw [refresh_verify_error s nowMillis t e hv]
      exact hinv
    · rcases hfind : findById s (payloadId p) with _ | u
      · rw [refresh_user_missing s nowMillis t p hv hfind]
        exact hinv
      · by_cases hmem : payloadJti p ∈ u.blacklistedRefreshTokens
        · rw [refresh_replay s nowMillis t p u hv hfind hmem]
          intro v hvmem
          rcases mem_updateById hfind hvmem with h1 | h1
          · exact hinv v h1
          · rw [h1]
            exact List.nodup_nil
        · rw [refresh_rotate s nowMillis t p u hv hfind hmem]
          intro v hvmem
          rcases mem_updateById hfind hvmem with h1 | h1
          · exact hinv v h1
          · rw [h1]
            unfold pushJti
            simp [List.nodup_append, hinv u (List.mem_of_find?_eq_some hfind), hmem]

/-- Claim C9 amended witness at a concrete store. -/
theorem claim_c9_amended_witness :
    RevocationNodup (registerUser [alice] 0 "u2" 4 "bob" "b@x.com" "Secret123").2
    ∧ RevocationNodup (refreshAuthTokens [alice] 0 tokenR0).2 :=
  ⟨(claim_c9_amended_nodup_preserved [alice] (by decide)).1 0 "u2" 4 "bob"
      "b@x.com" "Secret123",
   (claim_c9_amended_nodup_preserved [alice] (by decide)).2 0 tokenR0⟩

/-- Claim C10: a successful refresh changes the store only by appending the
old tokenId to the revocation set of the principal named in the token; the
principal keeps its id, username, email, password digest and avatar, and
every other position of the store is untouched. -/
theorem claim_c10_refresh_frame
    (s : Store) (nowMillis : Nat) (t : Token) (u' : User) (a r : Token)
    (h : (refreshAuthTokens s nowMillis t).1 = .ok (u', a, r)) :
    ∃ p u, jwtVerify t secretRefresh nowMillis false = .ok p
      ∧ findById s (payloadId p) = some u
      ∧ u'.id = u.id ∧ u'.username = u.username ∧ u'.email = u.email
      ∧ u'.password = u.password ∧ u'.avatar = u.avatar
      ∧ u'.blacklistedRefreshTokens
          = u.blacklistedRefreshTokens ++ [payloadJti p]
      ∧ (refreshAuthTokens s nowMillis t).2.length = s.length
      ∧ findById (refreshAuthTokens s nowMillis t).2 (payloadId p) = some u'
      ∧ ∀ i : Nat, ((refreshAuthTokens s nowMillis t).2)[i]? = s[i]?
          ∨ (s[i]? = some u ∧ ((refreshAuthTokens s nowMillis t).2)[i]? = some u') := by
  rcases hv : jwtVerify t secretRefresh nowMillis false with e | p
  · rw [refresh_verify_error s nowMillis t e hv] at h
    simp at h
  · rcases hfind : findById s (payloadId p) with _ | u
    · rw [refresh_user_missing s nowMillis t p hv hfind] at h
      simp at h
    · by_cases hmem : payloadJti p ∈ u.blacklistedRefreshTokens
      · rw [refresh_replay s nowMillis t p u hv hfind hmem] at h
        simp at h
      · have hres := refresh_rotate s nowMillis t p u hv hfind hmem
        rw [hres] at h
        have h2 : Except.ok (ε := AuthFailure) (pushJti (payloadJti p) u,
            (generateAuthTokens nowMillis u).1, (generateAuthTokens nowMillis u).2)
            = Except.ok (u', a, r) := h
        injection h2 with h3
        have hu' : u' = pushJti (payloadJti p) u := (congrArg Prod.fst h3).symm
        refine ⟨p, u, rfl, hfind, by rw [hu']; rfl, by rw [hu']; rfl,
          by rw [hu']; rfl, by rw [hu']; rfl, by rw [hu']; rfl,
          by rw [hu']; rfl, ?_, ?_, ?_⟩
        · rw [hres]
          exact updateById_length s (payloadId p) (pushJti (payloadJti p))
        · rw [hres]
          show findById (updateById s (payloadId p) (pushJti (payloadJti p)))
            (payloadId p) = some u'
          rw [findById_updateById s (payloadId p) (pushJti (payloadJti p))
            (fun v => rfl), hfind, hu']
          rfl
        · intro i
          rw [hres]
          show (updateById s (payloadId p) (pushJti (payloadJti p)))[i]? = s[i]?
            ∨ (s[i]? = some u
              ∧ (updateById s (payloadId p) (pushJti (payloadJti p)))[i]? = some u')
          rcases updateById_frame hfind i with h1 | h1
          · exact Or.inl h1
          · exact Or.inr ⟨h1.1, by rw [hu']; exact h1.2⟩

/-- Claim C10 witness at a concrete store and token. -/
theorem claim_c10_witness :
    ∃ p u, jwtVerify tokenR0 secretRefresh 10 false = .ok p
      ∧ findById [alice] (payloadId p) = some u
      ∧ (pushJti "u1-5" alice).id = u.id
      ∧ (pushJti "u1-5" alice).username = u.username
      ∧ (pushJti "u1-5" alice).email = u.email
      ∧ (pushJti "u1-5" alice).password = u.password
      ∧ (pushJti "u1-5" alice).avatar = u.avatar
      ∧ (pushJti "u1-5" alice).blacklistedRefreshTokens
          = u.blacklistedRefreshTokens ++ [payloadJti p]
      ∧ (refreshAuthTokens [alice] 10 tokenR0).2.length = ([alice] : Store).length
      ∧ findById (refreshAuthTokens [alice] 10 tokenR0).2 (payloadId p)
          = some (pushJti "u1-5" alice)
      ∧ ∀ i : Nat, ((refreshAuthTokens [alice] 10 tokenR0).2)[i]?
            = ([alice] : Store)[i]?
          ∨ (([alice] : Store)[i]? = some u
            ∧ ((refreshAuthTokens [alice] 10 tokenR0).2)[i]?
                = some (pushJti "u1-5" alice)) :=
  claim_c10_refresh_frame [alice] 10 tokenR0 (pushJti "u1-5" alice)
    (generateAuthTokens 10 alice).1 (generateAuthTokens 10 alice).2 (by decide)

end InsightAPI
